import Mathlib

/-!
Shallow embedding of `src/auto_investment_calculator.py`.

The repository is a single Python module with one class, `Investment`,
whose method `Auto_Investment_calculator` computes the accumulated value
of a periodic investment under compound interest.  Python floats are
modelled by `ℚ` (every operation in the source is a field operation:
`+`, `*`, `/`, integer powers), Python ints by `ℤ`, and the `ValueError`
raise by an `Except` error value.  The presentation side effects
(`print`, matplotlib) are modelled separately by an explicit event trace,
and object-state mutation by explicit state passing.
-/

namespace AutoInvestment

/-- Errors the method can raise: `ValueError` from the validation at
line 69-70 of the source (the spec calls it `InvalidPlanError`), and
`IndexError` from the negative list indexing in the plotting branch
(lines 111-114), which fails when the trajectory list is shorter than 4. -/
inductive InvError where
  | valueError
  | indexError
deriving DecidableEq

/-- The `Investment` object: fields stored by `__init__` (source lines
36-42).  `price` is the per-period contribution, `years` the horizon,
`times` the contributions per year (frequency), `interest` the annual
rate; `printFlag` and `graphFlag` model `self.print` and `self.graph`.
(The `save` argument of `__init__` is accepted but never stored.) -/
structure Investment where
  price : ℚ
  years : ℤ
  times : ℤ
  interest : ℚ
  printFlag : Bool
  graphFlag : Bool
deriving DecidableEq

/-- `Investment.__init__` (source lines 36-42): plain field assignment,
no validation of any argument; the `save` argument is discarded. -/
def Investment.init (price : ℚ) (years times : ℤ) (interest : ℚ)
    (print_value graph_bool save : Bool) : Investment :=
  { price := price, years := years, times := times, interest := interest,
    printFlag := print_value, graphFlag := graph_bool }

/-- The inner loop `for j in range(1, self.times+1): yearly_investment +=
self.price*(1+interest_rate_period)**j` (source lines 82-83), as a fold;
`j` runs over `1..times`, here written as `k+1` for `k < times`. -/
def yearlyInvestmentLoop (price periodRate : ℚ) (times : ℕ) : ℚ :=
  (List.range times).foldl (fun acc k => acc + price * (1 + periodRate) ^ (k + 1)) 0

/-- One iteration of the years loop (source lines 74-86) acting on the
state `(total_assets, total_assets_list)`.  For `times == 1` (lines
76-80): `total = (total + price) * (1 + interest)`, no append.  Otherwise
(lines 81-86): `total = total * (1 + interest) + yearly_investment`, then
`total / 1e6` is appended to the list. -/
def yearStep (inv : Investment) (periodRate : ℚ) (s : ℚ × List ℚ) : ℚ × List ℚ :=
  if inv.times = 1 then
    ((s.1 + inv.price) * (1 + inv.interest), s.2)
  else
    let yearly := yearlyInvestmentLoop inv.price periodRate inv.times.toNat
    let total := s.1 * (1 + inv.interest) + yearly
    (total, s.2 ++ [total / 1000000])

/-- The algorithmic core of `Auto_Investment_calculator` (source lines
69-86 and the `return total_assets` at line 142): validation first
(`raise ValueError` when `times < 1 or years < 1`), then
`interest_rate_period = interest / times`, then the years loop from
`total_assets = 0`, `total_assets_list = []`.  The result pairs the
returned `total_assets` with the internal `total_assets_list` (the
trajectory, observable through printing/plotting). -/
def Auto_Investment_calculator (inv : Investment) : Except InvError (ℚ × List ℚ) :=
  if inv.times < 1 ∨ inv.years < 1 then .error .valueError
  else
    .ok ((List.range inv.years.toNat).foldl
      (fun s _ => yearStep inv (inv.interest / (inv.times : ℚ)) s) (0, []))

/-- The `finalValue` observation: the `total_assets` the method returns,
defaulting to `0` on the error path (only used where the call succeeds). -/
def finalValueOf (inv : Investment) : ℚ :=
  match Auto_Investment_calculator inv with
  | .ok p => p.1
  | .error _ => 0

/-- The trajectory observation: the `total_assets_list` the method builds,
defaulting to `[]` on the error path (only used where the call succeeds). -/
def trajectoryOf (inv : Investment) : List ℚ :=
  match Auto_Investment_calculator inv with
  | .ok p => p.2
  | .error _ => []

/-- Observable output events of the method: the conditional detail
printing (lines 88-96), the unconditional `print(total_assets_list)`
(line 98), and showing / saving the plot (lines 109-123). -/
inductive OutputEvent where
  | printDetails
  | printList (xs : List ℚ)
  | savePlot
  | showPlot
deriving DecidableEq

/-- `Auto_Investment_calculator` with its observable side effects (source
lines 69-142): after the computation, the detail block prints when
`self.print` is true (its text reads module-level globals, not `self`;
it raises nothing), then line 98 prints `total_assets_list`
unconditionally, then when `self.graph` is true the plotting branch
indexes `total_assets_list[-2]`, `[-3]`, `[-4]` (an `IndexError` when the
list has fewer than 4 entries), saves when the module-level global `save`
is true (passed here as `saveGlobal`), and shows the plot. -/
def Auto_Investment_calculator_io (inv : Investment) (saveGlobal : Bool) :
    Except InvError (ℚ × List OutputEvent) :=
  if inv.times < 1 ∨ inv.years < 1 then .error .valueError
  else
    let periodRate := inv.interest / (inv.times : ℚ)
    let s := (List.range inv.years.toNat).foldl (fun s _ => yearStep inv periodRate s) (0, [])
    let ev : List OutputEvent :=
      (if inv.printFlag then [.printDetails] else []) ++ [.printList s.2]
    if inv.graphFlag then
      if s.2.length < 4 then .error .indexError
      else .ok (s.1, ev ++ (if saveGlobal then [.savePlot] else []) ++ [.showPlot])
    else .ok (s.1, ev)

/-- One iteration of the years loop threading the object state: the body
(source lines 74-86) reads `self.price`, `self.times`, `self.interest`
but contains no assignment to any attribute of `self`, so the object
component is passed through unchanged. -/
def yearStep_st (periodRate : ℚ) (s : Investment × ℚ × List ℚ) : Investment × ℚ × List ℚ :=
  (s.1, yearStep s.1 periodRate s.2)

/-- `Auto_Investment_calculator` with the object state threaded
explicitly: the pair's second component is `self` as left by the call
(also on the `raise` path, which Python leaves the object untouched by). -/
def Auto_Investment_calculator_st (inv : Investment) :
    Except InvError (ℚ × List ℚ) × Investment :=
  if inv.times < 1 ∨ inv.years < 1 then (.error .valueError, inv)
  else
    let periodRate := inv.interest / (inv.times : ℚ)
    let s := (List.range inv.years.toNat).foldl (fun s _ => yearStep_st periodRate s) (inv, 0, [])
    (.ok s.2, s.1)

/-- Modelled from the spec (§4.1, and the wording of the claims): the
per-year value of the within-year contributions,
`periodic = Σ_{j=1..frequency} contribution * (1 + annualRate/frequency)^j`. -/
def specPeriodic (contribution annualRate : ℚ) (frequency : ℕ) : ℚ :=
  ∑ j ∈ Finset.Icc 1 frequency, contribution * (1 + annualRate / (frequency : ℚ)) ^ j

/-- Modelled from the spec (§4.1): one year of the `frequency > 1` path,
`total = total * (1 + annualRate) + periodic`, then append
`total / 1_000_000` to the trajectory. -/
def specStepMulti (c r : ℚ) (f : ℕ) (s : ℚ × List ℚ) : ℚ × List ℚ :=
  let total := s.1 * (1 + r) + specPeriodic c r f
  (total, s.2 ++ [total / 1000000])

/-- Modelled from the spec (§4.1): the whole `frequency > 1` computation,
`years` iterations of `specStepMulti` from `total = 0`, `trajectory = []`. -/
def specComputeMulti (c r : ℚ) (f y : ℕ) : ℚ × List ℚ :=
  (specStepMulti c r f)^[y] (0, [])

/-- Modelled from the spec (§4.1): one year of the `frequency == 1` path,
`total = (total + contribution) * (1 + annualRate)`. -/
def specStepSingle (c r : ℚ) (t : ℚ) : ℚ :=
  (t + c) * (1 + r)

/-- Modelled from the spec (§4.1, §8): the whole `frequency == 1`
computation, `years` iterations of `specStepSingle` from `total = 0`. -/
def specComputeSingle (c r : ℚ) (y : ℕ) : ℚ :=
  (specStepSingle c r)^[y] 0

/-- Geometric-style sum `Σ_{j=1..f} (1 + r/f)^j`: the within-year growth
factor that `specPeriodic` scales by the contribution. -/
def Sgeo (r : ℚ) (f : ℕ) : ℚ :=
  ∑ j ∈ Finset.Icc 1 f, (1 + r / (f : ℚ)) ^ j

/-- Geometric sum `Σ_{k<y} (1 + r)^k`: the cross-year accumulation factor. -/
def Tgeo (r : ℚ) (y : ℕ) : ℚ :=
  ∑ k ∈ Finset.range y, (1 + r) ^ k

/-! ### Bridging lemmas: loops to iterates and sums -/

lemma foldl_add_eq_sum (g : ℕ → ℚ) (n : ℕ) (a : ℚ) :
    (List.range n).foldl (fun acc k => acc + g k) a = a + ∑ k ∈ Finset.range n, g k := by
  induction n generalizing a with
  | zero => simp
  | succ m ih =>
    rw [List.range_succ, List.foldl_append, ih]
    simp only [List.foldl_cons, List.foldl_nil, Finset.sum_range_succ]
    ring

lemma sum_Icc_one_eq_sum_range (g : ℕ → ℚ) (f : ℕ) :
    ∑ j ∈ Finset.Icc 1 f, g j = ∑ k ∈ Finset.range f, g (k + 1) := by
  induction f with
  | zero => simp
  | succ m ih => rw [Finset.sum_range_succ, ← ih, Finset.sum_Icc_succ_top (by omega)]

lemma yearlyInvestmentLoop_eq_specPeriodic (price r : ℚ) (f : ℕ) :
    yearlyInvestmentLoop price (r / (f : ℚ)) f = specPeriodic price r f := by
  unfold yearlyInvestmentLoop specPeriodic
  rw [foldl_add_eq_sum (fun k => price * (1 + r / (f : ℚ)) ^ (k + 1)) f 0, zero_add,
    sum_Icc_one_eq_sum_range]

lemma foldl_yearStep_eq_iterate (inv : Investment) (pr : ℚ) (n : ℕ) (s : ℚ × List ℚ) :
    (List.range n).foldl (fun t _ => yearStep inv pr t) s = (yearStep inv pr)^[n] s := by
  induction n generalizing s with
  | zero => simp
  | succ m ih =>
    rw [List.range_succ, List.foldl_append, ih]
    simp [Function.iterate_succ_apply']

lemma yearStep_multi (inv : Investment) (h : 1 < inv.times) (s : ℚ × List ℚ) :
    yearStep inv (inv.interest / (inv.times : ℚ)) s
      = specStepMulti inv.price inv.interest inv.times.toNat s := by
  have hcast : ((inv.times.toNat : ℕ) : ℚ) = (inv.times : ℚ) := by
    exact_mod_cast congrArg (fun z : ℤ => (z : ℚ))
      (Int.toNat_of_nonneg (by omega : (0 : ℤ) ≤ inv.times))
  unfold yearStep specStepMulti
  rw [if_neg (by omega : ¬ inv.times = 1), ← hcast, yearlyInvestmentLoop_eq_specPeriodic]

lemma yearStep_single (inv : Investment) (h : inv.times = 1) (pr : ℚ) (s : ℚ × List ℚ) :
    yearStep inv pr s = (specStepSingle inv.price inv.interest s.1, s.2) := by
  unfold yearStep specStepSingle
  rw [if_pos h]

lemma iterate_yearStep_single (inv : Investment) (h : inv.times = 1) (pr : ℚ) (n : ℕ)
    (s : ℚ × List ℚ) :
    (yearStep inv pr)^[n] s = ((specStepSingle inv.price inv.interest)^[n] s.1, s.2) := by
  induction n with
  | zero => simp
  | succ m ih =>
    rw [Function.iterate_succ_apply', Function.iterate_succ_apply', ih,
      yearStep_single inv h]

/-! ### Characterisation of the calculator on valid and invalid plans -/

lemma compute_invalid (inv : Investment) (h : inv.years < 1 ∨ inv.times < 1) :
    Auto_Investment_calculator inv = .error .valueError := by
  unfold Auto_Investment_calculator
  rw [if_pos h.symm]

lemma compute_valid (inv : Investment) (h1 : 1 ≤ inv.years) (h2 : 1 ≤ inv.times) :
    Auto_Investment_calculator inv = .ok (finalValueOf inv, trajectoryOf inv) := by
  unfold finalValueOf trajectoryOf Auto_Investment_calculator
  rw [if_neg (by omega : ¬ (inv.times < 1 ∨ inv.years < 1))]

lemma finalValueOf_eq (inv : Investment) (p : ℚ × List ℚ)
    (h : Auto_Investment_calculator inv = .ok p) : finalValueOf inv = p.1 := by
  unfold finalValueOf
  rw [h]

lemma trajectoryOf_eq (inv : Investment) (p : ℚ × List ℚ)
    (h : Auto_Investment_calculator inv = .ok p) : trajectoryOf inv = p.2 := by
  unfold trajectoryOf
  rw [h]

lemma compute_multi_eq (inv : Investment) (hf : 1 < inv.times) (hy : 1 ≤ inv.years) :
    Auto_Investment_calculator inv
      = .ok (specComputeMulti inv.price inv.interest inv.times.toNat inv.years.toNat) := by
  unfold Auto_Investment_calculator specComputeMulti
  rw [if_neg (by omega : ¬ (inv.times < 1 ∨ inv.years < 1)), foldl_yearStep_eq_iterate]
  have hfun : yearStep inv (inv.interest / (inv.times : ℚ))
      = specStepMulti inv.price inv.interest inv.times.toNat :=
    funext (yearStep_multi inv hf)
  rw [hfun]

lemma compute_single_eq (inv : Investment) (hf : inv.times = 1) (hy : 1 ≤ inv.years) :
    Auto_Investment_calculator inv
      = .ok (specComputeSingle inv.price inv.interest inv.years.toNat, []) := by
  unfold Auto_Investment_calculator specComputeSingle
  rw [if_neg (by omega : ¬ (inv.times < 1 ∨ inv.years < 1)), foldl_yearStep_eq_iterate,
    iterate_yearStep_single inv hf]

/-! ### Closed forms for the accumulated total -/

lemma specPeriodic_eq_mul_Sgeo (c r : ℚ) (f : ℕ) : specPeriodic c r f = c * Sgeo r f := by
  unfold specPeriodic Sgeo
  rw [Finset.mul_sum]

lemma iterate_multi_fst (c r : ℚ) (f n : ℕ) (s : ℚ × List ℚ) :
    ((specStepMulti c r f)^[n] s).1
      = s.1 * (1 + r) ^ n + specPeriodic c r f * Tgeo r n := by
  induction n with
  | zero => simp [Tgeo]
  | succ m ih =>
    rw [Function.iterate_succ_apply']
    simp only [specStepMulti]
    rw [ih]
    unfold Tgeo
    rw [geom_sum_succ]
    ring

lemma iterate_multi_snd_length (c r : ℚ) (f n : ℕ) (s : ℚ × List ℚ) :
    ((specStepMulti c r f)^[n] s).2.length = s.2.length + n := by
  induction n with
  | zero => simp
  | succ m ih =>
    rw [Function.iterate_succ_apply']
    simp only [specStepMulti]
    simp [ih]
    omega

lemma iterate_multi_snd_getLast (c r : ℚ) (f m : ℕ) (s : ℚ × List ℚ) :
    ((specStepMulti c r f)^[m + 1] s).2.getLast?
      = some (((specStepMulti c r f)^[m + 1] s).1 / 1000000) := by
  rw [Function.iterate_succ_apply']
  simp only [specStepMulti]
  simp

lemma iterate_specStepSingle (c r : ℚ) (n : ℕ) (t : ℚ) :
    (specStepSingle c r)^[n] t = t * (1 + r) ^ n + c * (1 + r) * Tgeo r n := by
  induction n with
  | zero => simp [Tgeo]
  | succ m ih =>
    rw [Function.iterate_succ_apply', ih]
    simp only [specStepSingle]
    unfold Tgeo
    rw [geom_sum_succ]
    ring

lemma Sgeo_one (r : ℚ) : Sgeo r 1 = 1 + r := by
  unfold Sgeo
  rw [Finset.Icc_self, Finset.sum_singleton]
  norm_num

lemma specComputeSingle_closed (c r : ℚ) (n : ℕ) :
    specComputeSingle c r n = c * (Sgeo r 1 * Tgeo r n) := by
  unfold specComputeSingle
  rw [iterate_specStepSingle, Sgeo_one]
  ring

/-- The accumulated total of any valid plan in product form: contribution
times within-year factor times cross-year factor (both paths of the
algorithm agree with this form). -/
lemma finalValueOf_closed (inv : Investment) (h1 : 1 ≤ inv.years) (h2 : 1 ≤ inv.times) :
    finalValueOf inv
      = inv.price * (Sgeo inv.interest inv.times.toNat * Tgeo inv.interest inv.years.toNat) := by
  rcases eq_or_lt_of_le h2 with heq | hlt
  · have hf : inv.times = 1 := heq.symm
    rw [finalValueOf_eq inv _ (compute_single_eq inv hf h1)]
    rw [specComputeSingle_closed, hf]
    norm_num
  · rw [finalValueOf_eq inv _ (compute_multi_eq inv hlt h1)]
    unfold specComputeMulti
    rw [iterate_multi_fst, specPeriodic_eq_mul_Sgeo]
    ring

/-! ### Positivity and monotonicity of the growth factors -/

lemma one_add_div_pos {r : ℚ} {f : ℕ} (hf : 1 ≤ f) (hr : -1 < r) :
    0 < 1 + r / (f : ℚ) := by
  have hfpos : (0 : ℚ) < (f : ℚ) := by exact_mod_cast Nat.lt_of_lt_of_le Nat.zero_lt_one hf
  have hf1 : (1 : ℚ) ≤ (f : ℚ) := by exact_mod_cast hf
  have hdiv : -1 < r / (f : ℚ) := by
    rw [lt_div_iff₀ hfpos]
    nlinarith
  linarith

lemma Sgeo_pos {r : ℚ} {f : ℕ} (hf : 1 ≤ f) (hr : -1 < r) : 0 < Sgeo r f := by
  unfold Sgeo
  apply Finset.sum_pos
  · intro j _
    exact pow_pos (one_add_div_pos hf hr) j
  · exact Finset.nonempty_Icc.mpr hf

lemma Tgeo_pos {r : ℚ} {y : ℕ} (hy : 1 ≤ y) (hr : -1 < r) : 0 < Tgeo r y := by
  unfold Tgeo
  apply Finset.sum_pos
  · intro k _
    exact pow_pos (by linarith) k
  · exact Finset.nonempty_range_iff.mpr (by omega)

lemma Sgeo_strict_mono {r₁ r₂ : ℚ} {f : ℕ} (hf : 1 ≤ f) (h1 : -1 < r₁) (h12 : r₁ < r₂) :
    Sgeo r₁ f < Sgeo r₂ f := by
  unfold Sgeo
  apply Finset.sum_lt_sum_of_nonempty (Finset.nonempty_Icc.mpr hf)
  intro j hj
  have hj1 : 1 ≤ j := (Finset.mem_Icc.mp hj).1
  have hfpos : (0 : ℚ) < (f : ℚ) := by exact_mod_cast Nat.lt_of_lt_of_le Nat.zero_lt_one hf
  have hbase : 1 + r₁ / (f : ℚ) < 1 + r₂ / (f : ℚ) := by
    have := (div_lt_div_iff_of_pos_right hfpos).mpr h12
    linarith
  exact pow_lt_pow_left₀ hbase (le_of_lt (one_add_div_pos hf h1)) (by omega)

lemma Tgeo_mono {r₁ r₂ : ℚ} (y : ℕ) (h1 : -1 < r₁) (h12 : r₁ ≤ r₂) :
    Tgeo r₁ y ≤ Tgeo r₂ y := by
  unfold Tgeo
  apply Finset.sum_le_sum
  intro k _
  exact pow_le_pow_left₀ (by linarith) (by linarith) k

/-! ### The state-threaded run never touches the object -/

lemma foldl_yearStep_st_eq (pr : ℚ) (l : List ℕ) (inv : Investment) (s : ℚ × List ℚ) :
    l.foldl (fun t _ => yearStep_st pr t) (inv, s)
      = (inv, l.foldl (fun t _ => yearStep inv pr t) s) := by
  induction l generalizing s with
  | nil => rfl
  | cons a as ih =>
    rw [List.foldl_cons, List.foldl_cons]
    exact ih _

/-- The state-threaded model returns the same result as the plain model. -/
lemma compute_st_agrees (inv : Investment) :
    (Auto_Investment_calculator_st inv).1 = Auto_Investment_calculator inv := by
  unfold Auto_Investment_calculator_st Auto_Investment_calculator
  by_cases h : inv.times < 1 ∨ inv.years < 1
  · rw [if_pos h, if_pos h]
  · rw [if_neg h, if_neg h]
    simp only [foldl_yearStep_st_eq]

/-! ### The claims -/

/-- Claim C1: for every plan with frequency > 1 and years ≥ 1, the
calculator follows exactly the spec's per-year recurrence: from
total = 0, each year it computes periodic = Σ_{j=1..frequency}
contribution * (1 + annualRate/frequency)^j, sets total =
total * (1 + annualRate) + periodic, and appends total / 1_000_000 to the
trajectory; the final value is the total after the last year. -/
theorem claim_C1 (inv : Investment) (hf : 1 < inv.times) (hy : 1 ≤ inv.years) :
    Auto_Investment_calculator inv
      = .ok (specComputeMulti inv.price inv.interest inv.times.toNat inv.years.toNat) :=
  compute_multi_eq inv hf hy

/-- Witness for C1 at the concrete plan (100, 2 years, 2 per year, 10%). -/
theorem claim_C1_witness :
    Auto_Investment_calculator ⟨100, 2, 2, 1/10, false, false⟩
      = .ok (specComputeMulti 100 (1/10) 2 2) :=
  claim_C1 ⟨100, 2, 2, 1/10, false, false⟩ (by decide) (by decide)

/-- Claim C2: for every plan with frequency = 1 and years ≥ 1, the
calculator returns the value of iterating total = (total + contribution)
* (1 + annualRate) exactly years times from 0, and the trajectory stays
empty. -/
theorem claim_C2 (inv : Investment) (hf : inv.times = 1) (hy : 1 ≤ inv.years) :
    Auto_Investment_calculator inv
      = .ok (specComputeSingle inv.price inv.interest inv.years.toNat, []) :=
  compute_single_eq inv hf hy

/-- Witness for C2 at the concrete plan (100, 3 years, annual, 10%). -/
theorem claim_C2_witness :
    Auto_Investment_calculator ⟨100, 3, 1, 1/10, false, false⟩
      = .ok (specComputeSingle 100 (1/10) 3, []) :=
  claim_C2 ⟨100, 3, 1, 1/10, false, false⟩ rfl (by decide)

/-- Claim C3: the calculator raises the invalid-plan error exactly when
years < 1 or frequency < 1, and on every other parameter combination
(any rate, any contribution) it returns a numeric result. -/
theorem claim_C3 (inv : Investment) :
    (Auto_Investment_calculator inv = .error .valueError
      ↔ (inv.years < 1 ∨ inv.times < 1)) ∧
    (¬ (inv.years < 1 ∨ inv.times < 1) →
      Auto_Investment_calculator inv = .ok (finalValueOf inv, trajectoryOf inv)) := by
  constructor
  · constructor
    · intro h
      by_contra hc
      rw [compute_valid inv (by omega) (by omega)] at h
      exact Except.noConfusion h
    · exact fun h => compute_invalid inv h
  · intro h
    exact compute_valid inv (by omega) (by omega)

/-- Witness for C3: frequency 0 raises; a zero-contribution negative-rate
plan is accepted. -/
theorem claim_C3_witness :
    Auto_Investment_calculator ⟨100, 5, 0, 1/10, false, false⟩ = .error .valueError ∧
    Auto_Investment_calculator ⟨0, 5, 2, -1/2, false, false⟩
      = .ok (finalValueOf ⟨0, 5, 2, -1/2, false, false⟩,
             trajectoryOf ⟨0, 5, 2, -1/2, false, false⟩) :=
  ⟨(claim_C3 ⟨100, 5, 0, 1/10, false, false⟩).1.mpr (Or.inr (by decide)),
   (claim_C3 ⟨0, 5, 2, -1/2, false, false⟩).2 (by decide)⟩

/-- Claim C4: with rate 0 and frequency 1, the final value is exactly
contribution * years. -/
theorem claim_C4 (inv : Investment) (hr : inv.interest = 0) (hf : inv.times = 1)
    (hy : 1 ≤ inv.years) :
    Auto_Investment_calculator inv = .ok (inv.price * (inv.years : ℚ), []) := by
  have hcast : ((inv.years.toNat : ℕ) : ℚ) = (inv.years : ℚ) := by
    exact_mod_cast congrArg (fun z : ℤ => (z : ℚ))
      (Int.toNat_of_nonneg (by omega : (0 : ℤ) ≤ inv.years))
  rw [compute_single_eq inv hf hy]
  have hval : specComputeSingle inv.price inv.interest inv.years.toNat
      = inv.price * (inv.years : ℚ) := by
    rw [hr, specComputeSingle_closed, Sgeo_one]
    unfold Tgeo
    simp [hcast]
  rw [hval]

/-- Witness for C4: the boundary case years = 1, frequency = 1, rate 0,
contribution 100 gives final value 100. -/
theorem claim_C4_witness :
    Auto_Investment_calculator ⟨100, 1, 1, 0, false, false⟩ = .ok (100, []) := by
  have h := claim_C4 ⟨100, 1, 1, 0, false, false⟩ rfl rfl (by decide)
  simpa using h

/-- Claim C5: with frequency > 1 and years ≥ 1, the trajectory has exactly
one entry per year. -/
theorem claim_C5 (inv : Investment) (hf : 1 < inv.times) (hy : 1 ≤ inv.years) :
    (trajectoryOf inv).length = inv.years.toNat := by
  rw [trajectoryOf_eq inv _ (compute_multi_eq inv hf hy)]
  unfold specComputeMulti
  rw [iterate_multi_snd_length]
  simp

/-- Witness for C5 at the concrete plan (50, 3 years, 4 per year, 5%). -/
theorem claim_C5_witness : (trajectoryOf ⟨50, 3, 4, 1/20, false, false⟩).length = 3 :=
  claim_C5 ⟨50, 3, 4, 1/20, false, false⟩ (by decide) (by decide)

/-- Claim C6 as stated is false at contribution 0 (a value the calculator
accepts): the final value is 0 at rate 0 and at rate 1, so it is not
strictly increasing in the rate while years, frequency and contribution
are held fixed and the rates exceed -1. -/
theorem claim_C6_counterexample :
    (-1 : ℚ) < 0 ∧ (0 : ℚ) < 1 ∧
    ¬ (finalValueOf ⟨0, 1, 1, 0, false, false⟩
        < finalValueOf ⟨0, 1, 1, 1, false, false⟩) := by
  refine ⟨by norm_num, by norm_num, ?_⟩
  have h0 : finalValueOf ⟨0, 1, 1, 0, false, false⟩ = 0 := by
    rw [finalValueOf_closed ⟨0, 1, 1, 0, false, false⟩ (by decide) (by decide)]
    simp
  have h1 : finalValueOf ⟨0, 1, 1, 1, false, false⟩ = 0 := by
    rw [finalValueOf_closed ⟨0, 1, 1, 1, false, false⟩ (by decide) (by decide)]
    simp
  rw [h0, h1]
  exact lt_irrefl 0

/-- Claim C6 amended: for fixed years ≥ 1, frequency ≥ 1 and rate ≥ 0 the
final value is strictly increasing in the contribution; and for fixed
years ≥ 1, frequency ≥ 1 and contribution > 0 it is strictly increasing
in the rate on rates > -1. -/
theorem claim_C6_amended :
    (∀ (y f : ℤ) (r c₁ c₂ : ℚ) (pv gb : Bool), 1 ≤ y → 1 ≤ f → 0 ≤ r → c₁ < c₂ →
      finalValueOf ⟨c₁, y, f, r, pv, gb⟩ < finalValueOf ⟨c₂, y, f, r, pv, gb⟩) ∧
    (∀ (y f : ℤ) (c r₁ r₂ : ℚ) (pv gb : Bool), 1 ≤ y → 1 ≤ f → 0 < c → -1 < r₁ → r₁ < r₂ →
      finalValueOf ⟨c, y, f, r₁, pv, gb⟩ < finalValueOf ⟨c, y, f, r₂, pv, gb⟩) := by
  constructor
  · intro y f r c₁ c₂ pv gb hy hf hr hc
    have hfn : 1 ≤ f.toNat := by omega
    have hyn : 1 ≤ y.toNat := by omega
    rw [finalValueOf_closed _ hy hf, finalValueOf_closed _ hy hf]
    exact mul_lt_mul_of_pos_right hc
      (mul_pos (Sgeo_pos hfn (by linarith)) (Tgeo_pos hyn (by linarith)))
  · intro y f c r₁ r₂ pv gb hy hf hc h1 h12
    have hfn : 1 ≤ f.toNat := by omega
    have hyn : 1 ≤ y.toNat := by omega
    rw [finalValueOf_closed _ hy hf, finalValueOf_closed _ hy hf]
    have h2 : -1 < r₂ := lt_trans h1 h12
    have hS2 : 0 < Sgeo r₂ f.toNat := Sgeo_pos hfn h2
    have hT1 : 0 < Tgeo r₁ y.toNat := Tgeo_pos hyn h1
    have hST : Sgeo r₁ f.toNat * Tgeo r₁ y.toNat < Sgeo r₂ f.toNat * Tgeo r₂ y.toNat :=
      calc Sgeo r₁ f.toNat * Tgeo r₁ y.toNat
          < Sgeo r₂ f.toNat * Tgeo r₁ y.toNat :=
            mul_lt_mul_of_pos_right (Sgeo_strict_mono hfn h1 h12) hT1
        _ ≤ Sgeo r₂ f.toNat * Tgeo r₂ y.toNat :=
            mul_le_mul_of_nonneg_left (Tgeo_mono _ h1 (le_of_lt h12)) (le_of_lt hS2)
    exact mul_lt_mul_of_pos_left hST hc

/-- Witness for the amended C6: raising the contribution from 100 to 101,
or the rate from 0 to 10%, raises the final value. -/
theorem claim_C6_amended_witness :
    finalValueOf ⟨100, 2, 2, 0, false, false⟩ < finalValueOf ⟨101, 2, 2, 0, false, false⟩ ∧
    finalValueOf ⟨100, 2, 2, 0, false, false⟩ < finalValueOf ⟨100, 2, 2, 1/10, false, false⟩ :=
  ⟨claim_C6_amended.1 2 2 0 100 101 false false (by decide) (by decide)
      (by norm_num) (by norm_num),
   claim_C6_amended.2 2 2 100 0 (1/10) false false (by decide) (by decide)
      (by norm_num) (by norm_num) (by norm_num)⟩

/-- Claim C7 as stated is false: the constructor performs no validation,
so constructing a plan with years = 0 succeeds and returns an ordinary
object; the invalid-plan error only arises later, when the calculator
method is called on it. -/
theorem claim_C7_counterexample :
    Investment.init 100 0 12 (1/10) false false false
      = { price := 100, years := 0, times := 12, interest := 1/10,
          printFlag := false, graphFlag := false } ∧
    Auto_Investment_calculator (Investment.init 100 0 12 (1/10) false false false)
      = .error .valueError :=
  ⟨rfl, rfl⟩

/-- Claim C7 amended: construction always succeeds, storing the arguments
verbatim; the invalid-plan error for years < 1 or frequency < 1 is raised
by the calculator method when it is called, not at construction time. -/
theorem claim_C7_amended (p : ℚ) (y t : ℤ) (r : ℚ) (pv gb sv : Bool) :
    Investment.init p y t r pv gb sv
      = { price := p, years := y, times := t, interest := r,
          printFlag := pv, graphFlag := gb } ∧
    ((y < 1 ∨ t < 1) →
      Auto_Investment_calculator (Investment.init p y t r pv gb sv)
        = .error .valueError) :=
  ⟨rfl, fun h => compute_invalid _ h⟩

/-- Witness for the amended C7 at years = -2. -/
theorem claim_C7_amended_witness :
    Auto_Investment_calculator (Investment.init 100 (-2) 12 (1/10) false false false)
      = .error .valueError :=
  (claim_C7_amended 100 (-2) 12 (1/10) false false false).2 (Or.inl (by decide))

/-- Claim C8 evaluated at the failing input (100, 1 year, 2 per year,
rate 0, both display flags off): the call still emits the unconditional
`print(total_assets_list)` of source line 98, so its observable behaviour
is not exhausted by the returned final value and trajectory. -/
theorem claim_C8_bug_eval :
    Auto_Investment_calculator_io ⟨100, 1, 2, 0, false, false⟩ false
      = .ok (200, [.printList [1/5000]]) := by
  simp [Auto_Investment_calculator_io, yearStep, yearlyInvestmentLoop, List.range_succ]
  norm_num

/-- Claim C9: with frequency > 1 and years ≥ 1, the last trajectory entry
is the returned final value divided by 1_000_000. -/
theorem claim_C9 (inv : Investment) (hf : 1 < inv.times) (hy : 1 ≤ inv.years) :
    (trajectoryOf inv).getLast? = some (finalValueOf inv / 1000000) := by
  rw [trajectoryOf_eq inv _ (compute_multi_eq inv hf hy),
    finalValueOf_eq inv _ (compute_multi_eq inv hf hy)]
  unfold specComputeMulti
  obtain ⟨m, hm⟩ : ∃ m, inv.years.toNat = m + 1 := ⟨inv.years.toNat - 1, by omega⟩
  rw [hm]
  exact iterate_multi_snd_getLast _ _ _ m _

/-- Witness for C9 at the concrete plan (10, 1 year, 2 per year, rate 0). -/
theorem claim_C9_witness :
    (trajectoryOf ⟨10, 1, 2, 0, false, false⟩).getLast?
      = some (finalValueOf ⟨10, 1, 2, 0, false, false⟩ / 1000000) :=
  claim_C9 ⟨10, 1, 2, 0, false, false⟩ (by decide) (by decide)

/-- Claim C10: the calculator never mutates the plan: whether it returns
or raises, the state-threaded run hands the object back unchanged, with
every field as it was stored at construction. -/
theorem claim_C10 (inv : Investment) : (Auto_Investment_calculator_st inv).2 = inv := by
  unfold Auto_Investment_calculator_st
  by_cases h : inv.times < 1 ∨ inv.years < 1
  · rw [if_pos h]
  · rw [if_neg h]
    simp only [foldl_yearStep_st_eq]

end AutoInvestment
